import Mathlib

/-!
Verification of the agentsdk-go runtime against its specification.

This file gives a shallow embedding, in Lean 4, of the parts of the
repository that the verified claims are about:

* the HTTP run/stream handlers (`handleRun`, `handleStream`, `decode`,
  `buildRunResponse` from the HTTP server source file), including a model of
  Go's `encoding/json` decoding with `DisallowUnknownFields` and the
  `io.LimitReader` 1 MiB body cap;
* the token-bucket + concurrency-semaphore admission middleware
  (`examples/middleware/ratelimit.go`);
* the symlink-refusing open of `pkg/security` (`openNoFollow` for hosts with
  and without `O_NOFOLLOW`);
* the canonical manifest serialisation and trust-store verification of
  `pkg/plugins/signature.go`;
* the settings deep-merge of `pkg/config` (modelled from the specification,
  as the merge implementation itself ships only with its tests).

Request/response bodies are modelled as lists of characters (bytes of the
ASCII payloads in the claims coincide with characters); machine floating
point (`float64` token counts, elapsed seconds) is modelled by exact
rationals; time is an explicit rational-valued parameter.
-/

namespace AgentHTTP

/-- JSON values as decoded by `encoding/json`; numbers are modelled as
integers (the only numeric field of `runRequest` is the integer
`timeout_ms`). -/
inductive Json where
  | null
  | bool (b : Bool)
  | num (n : Int)
  | str (s : String)
  | arr (elems : List Json)
  | obj (fields : List (String × Json))

/-- JSON insignificant whitespace (RFC 8259). -/
def isWSChar (c : Char) : Bool :=
  [' ', '\t', '\n', '\r'].contains c

/-- Skip insignificant whitespace, as the scanner inside `json.Decoder` does. -/
def skipWs : List Char → List Char
  | [] => []
  | c :: rest => if isWSChar c then skipWs rest else c :: rest

def isDigitChar (c : Char) : Bool :=
  48 ≤ c.toNat && c.toNat ≤ 57

def digitVal (c : Char) : Nat := c.toNat - 48

def hexVal (c : Char) : Option Nat :=
  let n := c.toNat
  if 48 ≤ n && n ≤ 57 then some (n - 48)
  else if 97 ≤ n && n ≤ 102 then some (n - 87)
  else if 65 ≤ n && n ≤ 70 then some (n - 55)
  else none

def escChar (c : Char) : Option Char :=
  if c = '"' then some '"'
  else if c = '\\' then some '\\'
  else if c = '/' then some '/'
  else if c = 'n' then some '\n'
  else if c = 't' then some '\t'
  else if c = 'r' then some '\r'
  else if c = 'b' then some (Char.ofNat 8)
  else if c = 'f' then some (Char.ofNat 12)
  else none

/-- Parse the body of a JSON string after the opening quote; returns the
decoded content and the remainder after the closing quote. -/
def parseStringBody : List Char → Option (List Char × List Char)
  | [] => none
  | '"' :: rest => some ([], rest)
  | '\\' :: 'u' :: h1 :: h2 :: h3 :: h4 :: rest => do
      let a ← hexVal h1
      let b ← hexVal h2
      let c ← hexVal h3
      let d ← hexVal h4
      let (s, r) ← parseStringBody rest
      some (Char.ofNat (((a * 16 + b) * 16 + c) * 16 + d) :: s, r)
  | '\\' :: c :: rest => do
      let e ← escChar c
      let (s, r) ← parseStringBody rest
      some (e :: s, r)
  | '\\' :: [] => none
  | c :: rest => do
      let (s, r) ← parseStringBody rest
      some (c :: s, r)

/-- Consume a run of decimal digits, accumulating their value. -/
def parseDigits (acc : Nat) : List Char → Nat × List Char
  | [] => (acc, [])
  | c :: rest =>
      if isDigitChar c then parseDigits (acc * 10 + digitVal c) rest
      else (acc, c :: rest)

def parseNumber : List Char → Option (Int × List Char)
  | '-' :: c :: rest =>
      if isDigitChar c then
        let (n, r) := parseDigits (digitVal c) rest
        some (-(n : Int), r)
      else none
  | c :: rest =>
      if isDigitChar c then
        let (n, r) := parseDigits (digitVal c) rest
        some ((n : Int), r)
      else none
  | [] => none

/-- Match a literal suffix of a keyword (`true` / `false` / `null`). -/
def stripLit : List Char → List Char → Option (List Char)
  | [], input => some input
  | l :: ls, c :: rest => if c = l then stripLit ls rest else none
  | _ :: _, [] => none

mutual

/-- Parse one JSON value.  Fuel only bounds nesting depth; the decoder always
supplies more fuel than the input length, so it never runs out on real
input. -/
def parseValue : Nat → List Char → Option (Json × List Char)
  | 0, _ => none
  | fuel + 1, input =>
    match skipWs input with
    | [] => none
    | '"' :: rest => (parseStringBody rest).map fun (s, r) => (.str (String.mk s), r)
    | '{' :: rest =>
        (match skipWs rest with
        | '}' :: r2 => some (.obj [], r2)
        | r2 => (parseMembers fuel r2).map fun (fs, r) => (.obj fs, r))
    | '[' :: rest =>
        (match skipWs rest with
        | ']' :: r2 => some (.arr [], r2)
        | r2 => (parseElements fuel r2).map fun (es, r) => (.arr es, r))
    | 't' :: rest => (stripLit ['r', 'u', 'e'] rest).map fun r => (.bool true, r)
    | 'f' :: rest => (stripLit ['a', 'l', 's', 'e'] rest).map fun r => (.bool false, r)
    | 'n' :: rest => (stripLit ['u', 'l', 'l'] rest).map fun r => (.null, r)
    | rest => (parseNumber rest).map fun (n, r) => (.num n, r)

/-- Parse the members of a JSON object after the opening brace (non-empty
case). -/
def parseMembers : Nat → List Char → Option (List (String × Json) × List Char)
  | 0, _ => none
  | fuel + 1, input =>
    match skipWs input with
    | '"' :: rest => do
        let (k, r1) ← parseStringBody rest
        match skipWs r1 with
        | ':' :: r2 => do
            let (v, r3) ← parseValue fuel r2
            match skipWs r3 with
            | ',' :: r4 => do
                let (fs, r5) ← parseMembers fuel r4
                some ((String.mk k, v) :: fs, r5)
            | '}' :: r4 => some ([(String.mk k, v)], r4)
            | _ => none
        | _ => none
    | _ => none

/-- Parse the elements of a JSON array after the opening bracket (non-empty
case). -/
def parseElements : Nat → List Char → Option (List Json × List Char)
  | 0, _ => none
  | fuel + 1, input => do
      let (v, r1) ← parseValue fuel input
      match skipWs r1 with
      | ',' :: r2 => do
          let (es, r3) ← parseElements fuel r2
          some (v :: es, r3)
      | ']' :: r2 => some ([v], r2)
      | _ => none

end

end AgentHTTP

namespace AgentHTTP

/-- The decoded `runRequest` struct of the HTTP server.  Absent JSON keys
leave the Go zero values in place, so every field carries its zero value as
default. -/
structure RunRequest where
  prompt : String := ""
  sessionID : String := ""
  timeoutMs : Int := 0
  tags : List (String × String) := []
  traits : List String := []
  channels : List String := []
  metadata : List (String × Json) := []
  toolWhitelist : List String := []

def asString : Json → Option String
  | .str s => some s
  | _ => none

def asStringList : Json → Option (List String)
  | .arr es => es.foldr (fun e acc => do
      let s ← asString e
      let l ← acc
      some (s :: l)) (some [])
  | _ => none

def asStringMap : Json → Option (List (String × String))
  | .obj fs => fs.foldr (fun f acc => do
      let s ← asString f.2
      let l ← acc
      some ((f.1, s) :: l)) (some [])
  | _ => none

/-- Assign one decoded JSON member to its `runRequest` field.  Unknown keys
are rejected (`DisallowUnknownFields`); a `null` value leaves the field
untouched, as `encoding/json` does; a value of the wrong shape is a decode
error. -/
def setField (req : RunRequest) (key : String) (v : Json) : Option RunRequest :=
  if key = "prompt" then
    match v with
    | .null => some req
    | .str s => some { req with prompt := s }
    | _ => none
  else if key = "session_id" then
    match v with
    | .null => some req
    | .str s => some { req with sessionID := s }
    | _ => none
  else if key = "timeout_ms" then
    match v with
    | .null => some req
    | .num n => some { req with timeoutMs := n }
    | _ => none
  else if key = "tags" then
    match v with
    | .null => some req
    | _ => (asStringMap v).map fun m => { req with tags := m }
  else if key = "traits" then
    match v with
    | .null => some req
    | _ => (asStringList v).map fun l => { req with traits := l }
  else if key = "channels" then
    match v with
    | .null => some req
    | _ => (asStringList v).map fun l => { req with channels := l }
  else if key = "metadata" then
    match v with
    | .null => some req
    | .obj fs => some { req with metadata := fs }
    | _ => none
  else if key = "tool_whitelist" then
    match v with
    | .null => some req
    | _ => (asStringList v).map fun l => { req with toolWhitelist := l }
  else none

/-- Fold the members of the decoded top-level object into a `runRequest`;
later duplicates of a key overwrite earlier ones, as in `encoding/json`. -/
def decodeFields : RunRequest → List (String × Json) → Option RunRequest
  | req, [] => some req
  | req, f :: rest =>
      match setField req f.1 f.2 with
      | some r => decodeFields r rest
      | none => none

/-- `maxBodyBytes = 1 << 20`: the `io.LimitReader` cap on the request body. -/
def maxBodyBytes : Nat := 2 ^ 20

/-- `json.Decoder.More` after the first decoded value: true when the next
non-whitespace byte exists and is not a closing bracket. -/
def jsonMore (rest : List Char) : Bool :=
  match skipWs rest with
  | [] => false
  | c :: _ => !(c == ']' || c == '}')

/-- Unmarshal the decoded top-level JSON value into `runRequest`: a `null`
leaves the zero value, an object is folded field by field, anything else is
a type error. -/
def decodeTop : Json → Except String RunRequest
  | .null => .ok {}
  | .obj fs =>
      match decodeFields {} fs with
      | some req => .ok req
      | none => .error "unknown or mistyped field"
  | _ => .error "cannot unmarshal value into runRequest"

/-- Decode the (already truncated) bytes handed over by the limit reader:
one JSON value, then `dec.More()` must be false. -/
def decodeTrunc (t : List Char) : Except String RunRequest :=
  match parseValue (2 * t.length + 2) t with
  | none => .error "request body is not valid JSON"
  | some (j, rest) =>
    if jsonMore rest then .error "request body must contain a single JSON object"
    else decodeTop j

/-- The server's `decode`: read at most `maxBodyBytes` of the body
(`io.LimitReader` silently truncates the rest), decode one JSON value with
unknown fields disallowed, and reject a second top-level value
(`dec.More()`). -/
def decodeBody (body : List Char) : Except String RunRequest :=
  decodeTrunc (body.take maxBodyBytes)

/-- Error kinds a runtime run can fail with (spec taxonomy §7). -/
inductive RuntimeErrorKind where
  | rateLimited
  | concurrencyExceeded
  | modelError
  | timeout
  | internal
deriving DecidableEq

/-- `api.Response.Result` as consumed by `buildRunResponse`. -/
structure AgentResult where
  output : String
  stopReason : String
  usage : Nat
  toolCalls : List String

/-- `api.Response` as consumed by `buildRunResponse`; `result = none` models
a nil `Result` pointer, `tags = none` a nil map. -/
structure ApiResponse where
  result : Option AgentResult
  tags : Option (List (String × String))

/-- The JSON payload of a successful run (`runResponse`). -/
structure RunResponse where
  sessionID : String
  output : String
  stopReason : String
  usage : Nat
  toolCalls : List String
  tags : List (String × String)
deriving DecidableEq

/-- `buildRunResponse(resp, req.SessionID)`: fails on a nil response or nil
result, otherwise copies the request's session id verbatim into the
payload. -/
def buildRunResponse : Option ApiResponse → String → Except String RunResponse
  | none, _ => .error "agent response is empty"
  | some resp, sid =>
      match resp.result with
      | none => .error "agent response is empty"
      | some res =>
          .ok { sessionID := sid
                output := res.output
                stopReason := res.stopReason
                usage := res.usage
                toolCalls := res.toolCalls
                tags := resp.tags.getD [] }

/-- Characters stripped by Go's `strings.TrimSpace` (`unicode.IsSpace` over
Latin-1). -/
def isGoSpace (c : Char) : Bool :=
  [' ', '\t', '\n', '\r', Char.ofNat 11, Char.ofNat 12,
    Char.ofNat 133, Char.ofNat 160].contains c

/-- Go's `strings.TrimSpace`. -/
def trimSpace (s : String) : String :=
  String.mk (((s.data.dropWhile isGoSpace).reverse.dropWhile isGoSpace).reverse)

/-- Outcome of one HTTP request: status code written, whether the runtime's
Run/RunStream was invoked, and the success payload if any. -/
structure HttpOutcome where
  status : Nat
  ranRuntime : Bool
  payload : Option RunResponse
deriving DecidableEq

/-- `handleRun` on a POST body, parametrised by the runtime's `Run`
behaviour: 400 on decode failure or blank prompt (before the runtime is
invoked), 502 on any runtime error, 500 when the response payload cannot be
built, 200 otherwise. -/
def handleRun (body : List Char)
    (run : RunRequest → Except RuntimeErrorKind (Option ApiResponse)) : HttpOutcome :=
  match decodeBody body with
  | .error _ => ⟨400, false, none⟩
  | .ok req =>
    if trimSpace req.prompt = "" then ⟨400, false, none⟩
    else
      match run req with
      | .error _ => ⟨502, true, none⟩
      | .ok resp =>
          match buildRunResponse resp req.sessionID with
          | .error _ => ⟨500, true, none⟩
          | .ok payload => ⟨200, true, some payload⟩

/-- `handleStream` up to the point the SSE stream starts: 400 on decode
failure or blank prompt (before `RunStream` is invoked), 502 when
`RunStream` itself errors, 200 once the event stream is open. -/
def handleStream (body : List Char)
    (runStream : RunRequest → Except RuntimeErrorKind Unit) : HttpOutcome :=
  match decodeBody body with
  | .error _ => ⟨400, false, none⟩
  | .ok req =>
    if trimSpace req.prompt = "" then ⟨400, false, none⟩
    else
      match runStream req with
      | .error _ => ⟨502, true, none⟩
      | .ok _ => ⟨200, true, none⟩

end AgentHTTP

namespace AgentHTTP

/-- The body of the C6 scenario: a complete JSON run request. -/
def objChars : List Char := "\x7b\"prompt\":\"hi\"\x7d".toList

/-- A body whose complete JSON object sits inside the first MiB and whose
trailing whitespace pushes the total size over `maxBodyBytes`. -/
def bigBody : List Char := objChars ++ List.replicate maxBodyBytes ' '

/-- A non-nil runtime response with a non-nil result. -/
def okResponse : ApiResponse :=
  { result := some { output := "done", stopReason := "done", usage := 3, toolCalls := [] }
    tags := none }

/-- A runtime whose `Run` always succeeds. -/
def runOK : RunRequest → Except RuntimeErrorKind (Option ApiResponse) :=
  fun _ => .ok (some okResponse)

/-- A runtime whose `Run` always fails rate-limited. -/
def runRateLimited : RunRequest → Except RuntimeErrorKind (Option ApiResponse) :=
  fun _ => .error .rateLimited

end AgentHTTP

namespace RateLimit

/-- State of `rateLimitMiddleware`'s token bucket.  `float64` fields are
modelled by exact rationals; `lastRefill` is a rational-valued timestamp. -/
structure Bucket where
  ratePerSec : ℚ
  burst : ℚ
  tokens : ℚ
  lastRefill : ℚ
deriving DecidableEq

/-- `newRateLimitMiddleware`: non-positive rps defaults to 5, non-positive
burst defaults to rps, and the bucket starts full at construction time
(taken as time 0). -/
def newRateLimitBucket (rps burst : Int) : Bucket :=
  let r : Int := if rps ≤ 0 then 5 else rps
  let b : Int := if burst ≤ 0 then r else burst
  { ratePerSec := (r : ℚ), burst := (b : ℚ), tokens := (b : ℚ), lastRefill := 0 }

/-- The refill step inside `tryConsume`: add `elapsed × rate` when time has
passed, capping at `burst`. -/
def refill (b : Bucket) (now : ℚ) : Bucket :=
  if 0 < now - b.lastRefill then
    { b with
      tokens := if b.burst < b.tokens + (now - b.lastRefill) * b.ratePerSec
        then b.burst else b.tokens + (now - b.lastRefill) * b.ratePerSec
      lastRefill := now }
  else b

/-- `tryConsume`: refill, then take one token when at least one is
available. -/
def tryConsume (b : Bucket) (now : ℚ) : Bucket × Bool :=
  if (refill b now).tokens < 1 then (refill b now, false)
  else ({ refill b now with tokens := (refill b now).tokens - 1 }, true)

/-- `n` consecutive `tryConsume` attempts at one instant; returns the final
bucket and how many attempts succeeded. -/
def consumeN (b : Bucket) (now : ℚ) : Nat → Bucket × Nat
  | 0 => (b, 0)
  | n + 1 =>
      match tryConsume b now with
      | (b', true) =>
          let (b'', k) := consumeN b' now n
          (b'', k + 1)
      | (b', false) =>
          let (b'', k) := consumeN b' now n
          (b'', k)

/-- The invariant of a bucket built by `newRateLimitMiddleware`. -/
def BucketInv (b : Bucket) : Prop :=
  0 ≤ b.tokens ∧ b.tokens ≤ b.burst ∧ 0 ≤ b.ratePerSec

/-- Errors the admission middleware can report, together with the
`RateLimited` kind the specification predicts. -/
inductive GateError where
  | ctxCancelled
  | concurrentLimit
  | rateLimited
deriving DecidableEq

/-- Result of `waitForToken` observed over a finite schedule of poll steps
(each step: is the context done, and the current time).  `polling` means the
loop was still blocked — asleep between polls — when the observation ended. -/
inductive WaitOutcome where
  | acquired (b : Bucket)
  | failed (e : GateError) (b : Bucket)
  | polling (b : Bucket)
deriving DecidableEq

/-- `waitForToken`: an unbounded poll loop — check the context, try to
consume, sleep 10 ms and retry.  The sleep instants are the schedule. -/
def waitForToken (b : Bucket) : List (Bool × ℚ) → WaitOutcome
  | [] => .polling b
  | step :: rest =>
      if step.1 then .failed .ctxCancelled b
      else
        match tryConsume b step.2 with
        | (b', true) => .acquired b'
        | (b', false) => waitForToken b' rest

/-- The semaphore half of `BeforeAgent`: a `select` over a buffered-channel
send, `ctx.Done()`, and a `default` branch.  `pick` resolves Go's random
choice when both the send and the done channel are ready. -/
def semTryAcquire (cap held : Nat) (ctxDone pick : Bool) : Except GateError Nat :=
  if held < cap then
    if ctxDone && !pick then .error .ctxCancelled
    else .ok (held + 1)
  else if ctxDone then .error .ctxCancelled
  else .error .concurrentLimit

/-- `AfterAgent`: a non-blocking receive that frees one slot when any is
held. -/
def afterAgentRelease (held : Nat) : Nat :=
  if 0 < held then held - 1 else held

/-- `BeforeAgent` as a whole: token wait first, then the semaphore. -/
inductive AdmitResult where
  | admitted (b : Bucket) (held : Nat)
  | failed (e : GateError) (b : Bucket)
  | blocked (b : Bucket)
deriving DecidableEq

def beforeAgent (b : Bucket) (sched : List (Bool × ℚ)) (cap held : Nat)
    (ctxDoneAtSem pick : Bool) : AdmitResult :=
  match waitForToken b sched with
  | .polling b' => .blocked b'
  | .failed e b' => .failed e b'
  | .acquired b' =>
      match semTryAcquire cap held ctxDoneAtSem pick with
      | .ok h' => .admitted b' h'
      | .error e => .failed e b'

/-- One interleaved event on the shared semaphore: a run entering
`BeforeAgent`'s semaphore step, or a run executing `AfterAgent`. -/
inductive GateOp where
  | acq (ctxDone pick : Bool)
  | rel

/-- Slots currently held, successful acquisitions so far, release
invocations so far. -/
structure GateCounts where
  held : Nat
  succ : Nat
  rels : Nat
deriving DecidableEq

/-- Execute an interleaving of semaphore events. -/
def gateExec (cap : Nat) : GateCounts → List GateOp → GateCounts
  | st, [] => st
  | st, .acq c p :: ops =>
      match semTryAcquire cap st.held c p with
      | .ok h' => gateExec cap ⟨h', st.succ + 1, st.rels⟩ ops
      | .error _ => gateExec cap st ops
  | st, .rel :: ops => gateExec cap ⟨afterAgentRelease st.held, st.succ, st.rels + 1⟩ ops

/-- A well-formed interleaving: every `AfterAgent` release belongs to a run
whose `BeforeAgent` succeeded earlier, so it fires while at least one slot
is held. -/
def gateWf (cap : Nat) : Nat → List GateOp → Bool
  | _, [] => true
  | held, .acq c p :: ops =>
      match semTryAcquire cap held c p with
      | .ok h' => gateWf cap h' ops
      | .error _ => gateWf cap held ops
  | held, .rel :: ops => decide (0 < held) && gateWf cap (held - 1) ops

end RateLimit

namespace Security

/-- The `syscall` error codes distinguished by `openNoFollow`. -/
inductive Errno where
  | eloop
  | enotdir
  | eisdir
  | other (code : Nat)
deriving DecidableEq

/-- Result of `syscall.Open(path, O_RDONLY|O_CLOEXEC|O_NOFOLLOW, 0)` on the
given path — the host's answer, an input to the repository's logic. -/
inductive OpenResult where
  | opened
  | err (e : Errno)
deriving DecidableEq

/-- What `openNoFollow` reports to its caller. -/
inductive NoFollowOutcome where
  | noError
  | symlinkLoop
  | openFailed
deriving DecidableEq

/-- Unix `openNoFollow` (build tag `!windows`): `ELOOP` means a symlink was
encountered; `ENOTDIR`/`EISDIR` fall back to the metadata-only stat path and
report no error; any other failure is reported as a plain open failure. -/
def openNoFollow : OpenResult → NoFollowOutcome
  | .opened => .noError
  | .err .eloop => .symlinkLoop
  | .err .enotdir => .noError
  | .err .eisdir => .noError
  | .err (.other _) => .openFailed

/-- `supportsNoFollow` per build: true on Unix, false on Windows. -/
def supportsNoFollow (windows : Bool) : Bool := !windows

/-- Windows `openNoFollow`: unconditionally no error, for any path. -/
def openNoFollowWindows (_path : String) : NoFollowOutcome := .noError

end Security

namespace Plugins

/-- `pkg/plugins.Manifest`, restricted to the fields
`CanonicalManifestBytes` and `TrustStore.Verify` read.  The Go `Hooks` map
is modelled as an association list whose keys are distinct in any value a
Go map can produce; lookup ignores entry order, as a map does. -/
structure Manifest where
  name : String
  version : String
  description : String
  author : String
  commands : List String
  agents : List String
  skills : List String
  hooks : List (String × List String)
  digest : String
  signer : String
  signature : String

/-- `sort.Strings`. -/
def sortStrings (l : List String) : List String := List.insertionSort (· ≤ ·) l

/-- The `hookEntry` struct built for the canonical payload. -/
structure HookEntry where
  name : String
  values : List String
deriving DecidableEq

/-- The value list the Go map holds under key `k` (empty when absent). -/
def hookValues (hooks : List (String × List String)) (k : String) : List String :=
  match hooks.lookup k with
  | some vs => vs
  | none => []

/-- The anonymous payload struct `CanonicalManifestBytes` marshals: every
list sorted, hook keys sorted with their value lists sorted, digest
lower-cased. -/
structure CanonicalPayload where
  name : String
  version : String
  description : String
  author : String
  commands : List String
  agents : List String
  skills : List String
  hooks : List HookEntry
  digest : String
  signer : String
deriving DecidableEq

def canonicalPayload (mf : Manifest) : CanonicalPayload :=
  { name := mf.name
    version := mf.version
    description := mf.description
    author := mf.author
    commands := sortStrings mf.commands
    agents := sortStrings mf.agents
    skills := sortStrings mf.skills
    hooks := (sortStrings (mf.hooks.map Prod.fst).dedup).map fun k =>
      ⟨k, sortStrings (hookValues mf.hooks k)⟩
    digest := mf.digest.toLower
    signer := mf.signer }

/-- JSON string escaping as `json.Marshal` performs it on the payload's
string fields (quotes and backslashes; other characters pass through). -/
def renderString (s : String) : String :=
  "\"" ++ String.mk ((s.data.map fun c =>
    if c = '"' ∨ c = '\\' then ['\\', c] else [c]).flatten) ++ "\""

def renderStringList (l : List String) : String :=
  "[" ++ String.intercalate "," (l.map renderString) ++ "]"

def renderHookEntry (h : HookEntry) : String :=
  "\x7b\"name\":" ++ renderString h.name ++
    ",\"values\":" ++ renderStringList h.values ++ "\x7d"

/-- `json.Marshal` of the canonical payload: a deterministic function of the
payload, with fields in declaration order. -/
def renderPayload (p : CanonicalPayload) : String :=
  "\x7b\"name\":" ++ renderString p.name ++
  ",\"version\":" ++ renderString p.version ++
  ",\"description\":" ++ renderString p.description ++
  ",\"author\":" ++ renderString p.author ++
  ",\"commands\":" ++ renderStringList p.commands ++
  ",\"agents\":" ++ renderStringList p.agents ++
  ",\"skills\":" ++ renderStringList p.skills ++
  ",\"hooks\":[" ++ String.intercalate "," (p.hooks.map renderHookEntry) ++ "]" ++
  ",\"digest\":" ++ renderString p.digest ++
  ",\"signer\":" ++ renderString p.signer ++ "\x7d"

/-- `CanonicalManifestBytes`: canonicalise, then marshal. -/
def canonicalManifestBytes (mf : Manifest) : String :=
  renderPayload (canonicalPayload mf)

/-- `TrustStore`, with ed25519 keys as opaque strings. -/
structure TrustStore where
  keys : List (String × String)
  blockedDigests : List String
  allowUnsigned : Bool

inductive VerifyResult where
  | ok
  | digestBlocked
  | unsignedRejected
  | unknownSigner
  | decodeError
  | badSignature
deriving DecidableEq

/-- `TrustStore.Verify`, parametrised by the cryptographic primitives it
calls: `sigValid key hashedPayload sig` is `ed25519.Verify`, `hash` is
SHA-256 over the payload bytes, `b64decode` is base64 decoding of the
manifest's signature field. -/
def verify (sigValid : String → String → String → Bool)
    (hash : String → String) (b64decode : String → Option String)
    (ts : TrustStore) (mf : Manifest) (payload : String) : VerifyResult :=
  if ts.blockedDigests.contains mf.digest.toLower then .digestBlocked
  else if mf.signature = "" ∨ mf.signer = "" then
    if ts.allowUnsigned then .ok else .unsignedRejected
  else
    match ts.keys.lookup mf.signer with
    | none => .unknownSigner
    | some key =>
        match b64decode mf.signature with
        | none => .decodeError
        | some sig =>
            if sigValid key (hash payload) sig then .ok else .badSignature

/-- `SignManifest`: sign the SHA-256 of the canonical bytes (base64 encoding
of the raw signature is absorbed into the abstract `sign`). -/
def signManifest (sign : String → String → String) (hash : String → String)
    (priv : String) (mf : Manifest) : String :=
  sign priv (hash (canonicalManifestBytes mf))

end Plugins

namespace Config

/-- Modelled from the spec: the repository's `MergeSettings` implementation
is not part of the shipped sources (only `settings_merge_test.go` and the
loader tests reference it).  The spec states: "Configuration precedence:
managed > runtime > local > project > user (deep-merged: maps union with
higher wins, lists concatenate with deduplication preserving order)."  A
scalar field is modelled as an `Option` (Go zero value = unset), a map
field as an association list, a list field as a list.  `Settings` keeps one
representative field of each shape. -/
structure Settings where
  model : Option String := none
  cleanupPeriodDays : Option Int := none
  env : List (String × String) := []
  companyAnnouncements : List String := []
deriving DecidableEq

/-- Scalar merge: the higher layer's value when it is set, else the lower's. -/
def mergeScalar {α : Type} (lo hi : Option α) : Option α :=
  match hi with
  | some v => some v
  | none => lo

/-- Deduplicate keeping each element's first occurrence, skipping anything
already seen. -/
def dedupFirstAux (seen : List String) : List String → List String
  | [] => []
  | x :: xs =>
      if x ∈ seen then dedupFirstAux seen xs
      else x :: dedupFirstAux (x :: seen) xs

/-- `mergeStringSlices`: concatenate lower-then-higher and deduplicate
preserving first-occurrence order. -/
def mergeStringSlices (lo hi : List String) : List String :=
  dedupFirstAux [] (lo ++ hi)

/-- Map union with the higher layer winning on shared keys. -/
def mergeStringMap (lo hi : List (String × String)) : List (String × String) :=
  hi ++ lo.filter fun p => (hi.lookup p.1).isNone

/-- `MergeSettings` over one lower and one higher layer. -/
def MergeSettings (lo hi : Settings) : Settings :=
  { model := mergeScalar lo.model hi.model
    cleanupPeriodDays := mergeScalar lo.cleanupPeriodDays hi.cleanupPeriodDays
    env := mergeStringMap lo.env hi.env
    companyAnnouncements := mergeStringSlices lo.companyAnnouncements hi.companyAnnouncements }

/-- The five layers folded in precedence order
managed > runtime > localLayer > project > user. -/
def mergeLayers (user project localLayer runtime managed : Settings) : Settings :=
  MergeSettings (MergeSettings (MergeSettings (MergeSettings user project) localLayer) runtime) managed

end Config

namespace AgentHTTP

/-- A runtime stream that always starts successfully. -/
def streamOK : RunRequest → Except RuntimeErrorKind Unit := fun _ => .ok ()

/-- A runtime stream that fails with a timeout. -/
def streamTimeout : RunRequest → Except RuntimeErrorKind Unit := fun _ => .error .timeout

/-- A runtime run that fails with a timeout. -/
def runTimeout : RunRequest → Except RuntimeErrorKind (Option ApiResponse) :=
  fun _ => .error .timeout

/-- A body whose prompt is whitespace only. -/
def bodyBlank : List Char := "\x7b\"prompt\":\"  \"\x7d".toList

/-- A body carrying both a prompt and a session id. -/
def bodySess : List Char := "\x7b\"prompt\":\"hi\",\"session_id\":\"s1\"\x7d".toList

end AgentHTTP

namespace Plugins

/-- A concrete manifest for the order-insensitivity witness. -/
def mfA : Manifest :=
  { name := "demo", version := "1.0.0", description := "d", author := "a"
    commands := ["b", "a"], agents := ["y", "x"], skills := ["s"]
    hooks := [("pre", ["k2", "k1"])]
    digest := "AB", signer := "dev", signature := "sig" }

/-- `mfA` with every list written in a different order. -/
def mfB : Manifest :=
  { name := "demo", version := "1.0.0", description := "d", author := "a"
    commands := ["a", "b"], agents := ["x", "y"], skills := ["s"]
    hooks := [("pre", ["k1", "k2"])]
    digest := "AB", signer := "dev", signature := "sig" }

end Plugins

open AgentHTTP RateLimit Security Plugins Config

theorem handleRun_decode_error (body : List Char) (e : String)
    (run : RunRequest → Except RuntimeErrorKind (Option ApiResponse))
    (h : decodeBody body = .error e) : handleRun body run = ⟨400, false, none⟩ := by
  unfold handleRun
  rw [h]

theorem handleStream_decode_error (body : List Char) (e : String)
    (runStream : RunRequest → Except RuntimeErrorKind Unit)
    (h : decodeBody body = .error e) : handleStream body runStream = ⟨400, false, none⟩ := by
  unfold handleStream
  rw [h]

theorem handleRun_payload_sid (body : List Char) (req : RunRequest)
    (run : RunRequest → Except RuntimeErrorKind (Option ApiResponse)) (p : RunResponse)
    (hdec : decodeBody body = .ok req)
    (hp : (handleRun body run).payload = some p) : p.sessionID = req.sessionID := by
  by_cases hb : trimSpace req.prompt = ""
  · have h : handleRun body run = ⟨400, false, none⟩ := by simp [handleRun, hdec, hb]
    rw [h] at hp; simp at hp
  · cases hr : run req with
    | error k =>
        have h : handleRun body run = ⟨502, true, none⟩ := by
          simp [handleRun, hdec, hb, hr]
        rw [h] at hp; simp at hp
    | ok resp =>
        cases resp with
        | none =>
            have h : handleRun body run = ⟨500, true, none⟩ := by
              simp [handleRun, hdec, hb, hr, buildRunResponse]
            rw [h] at hp; simp at hp
        | some r =>
            cases hres : r.result with
            | none =>
                have h : handleRun body run = ⟨500, true, none⟩ := by
                  simp [handleRun, hdec, hb, hr, buildRunResponse, hres]
                rw [h] at hp; simp at hp
            | some res =>
                have h : handleRun body run =
                    ⟨200, true, some ⟨req.sessionID, res.output, res.stopReason,
                      res.usage, res.toolCalls, r.tags.getD []⟩⟩ := by
                  simp [handleRun, hdec, hb, hr, buildRunResponse, hres]
                rw [h] at hp
                simp at hp
                rw [← hp]

/-- Claim C2: a run or stream request whose prompt is empty or whitespace
only is rejected with status 400 before the runtime's Run/RunStream is
invoked. -/
theorem C2_blank_prompt_rejected (body : List Char) (req : RunRequest)
    (run : RunRequest → Except RuntimeErrorKind (Option ApiResponse))
    (runStream : RunRequest → Except RuntimeErrorKind Unit)
    (hdec : decodeBody body = .ok req)
    (hblank : trimSpace req.prompt = "") :
    handleRun body run = ⟨400, false, none⟩ ∧
    handleStream body runStream = ⟨400, false, none⟩ := by
  constructor
  · simp [handleRun, hdec, hblank]
  · simp [handleStream, hdec, hblank]

/-- Witness for C2 at the concrete whitespace-prompt body. -/
theorem C2_witness :
    handleRun bodyBlank runOK = ⟨400, false, none⟩ ∧
    handleStream bodyBlank streamOK = ⟨400, false, none⟩ :=
  C2_blank_prompt_rejected bodyBlank { prompt := "  " } runOK streamOK rfl rfl

/-- Claim C1 counterexample: a request whose runtime run fails rate-limited
is answered with 502, not the 429 required by the per-kind mapping; the
handler has no per-kind mapping at all. -/
theorem C1_counterexample :
    handleRun objChars runRateLimited = ⟨502, true, none⟩ ∧ (502 : Nat) ≠ 429 := by
  constructor
  · rfl
  · decide

/-- Claim C1 amended: every runtime execution failure — rate-limited,
concurrency-exceeded, model error, timeout or internal alike — is answered
with status 502, while 400 is produced only before the runtime runs. -/
theorem C1_amended (body : List Char) (req : RunRequest) (k : RuntimeErrorKind)
    (run : RunRequest → Except RuntimeErrorKind (Option ApiResponse))
    (runStream : RunRequest → Except RuntimeErrorKind Unit)
    (hdec : decodeBody body = .ok req) (hprompt : trimSpace req.prompt ≠ "")
    (hrun : run req = .error k) (hstream : runStream req = .error k) :
    handleRun body run = ⟨502, true, none⟩ ∧
    handleStream body runStream = ⟨502, true, none⟩ := by
  constructor
  · simp [handleRun, hdec, hprompt, hrun]
  · simp [handleStream, hdec, hprompt, hstream]

/-- Witness for the amended C1: a timeout failure is also answered 502. -/
theorem C1_witness :
    handleRun objChars runTimeout = ⟨502, true, none⟩ ∧
    handleStream objChars streamTimeout = ⟨502, true, none⟩ :=
  C1_amended objChars { prompt := "hi" } .timeout runTimeout streamTimeout rfl
    (by decide) rfl rfl

/-- Claim C9: the session_id of every successful run response is copied
verbatim from the request; a request that omits session_id (such as the
body `objChars`) yields an empty session_id, never a runtime-assigned one. -/
theorem C9_session_id_verbatim (body : List Char) (req : RunRequest)
    (run : RunRequest → Except RuntimeErrorKind (Option ApiResponse)) (p : RunResponse)
    (hdec : decodeBody body = .ok req)
    (hp : (handleRun body run).payload = some p) :
    p.sessionID = req.sessionID ∧
    (∀ (run' : RunRequest → Except RuntimeErrorKind (Option ApiResponse)) (p' : RunResponse),
      (handleRun objChars run').payload = some p' → p'.sessionID = "") := by
  refine ⟨handleRun_payload_sid body req run p hdec hp, ?_⟩
  intro run' p' hp'
  exact handleRun_payload_sid objChars { prompt := "hi" } run' p' rfl hp'

/-- Witness for C9 at a body carrying session_id "s1". -/
theorem C9_witness :
    (handleRun bodySess runOK).payload
      = some ⟨"s1", "done", "done", 3, [], []⟩ ∧
    (⟨"s1", "done", "done", 3, [], []⟩ : RunResponse).sessionID = "s1" := by
  refine ⟨rfl, ?_⟩
  exact (C9_session_id_verbatim bodySess { prompt := "hi", sessionID := "s1" } runOK
    ⟨"s1", "done", "done", 3, [], []⟩ rfl rfl).1

theorem parse_obj_prefix (f : Nat) (tail : List Char) :
    parseValue (f + 4) (objChars ++ tail)
      = some (.obj [("prompt", .str "hi")], tail) := rfl

theorem skipWs_replicate (n : Nat) : skipWs (List.replicate n ' ') = [] := by
  induction n with
  | zero => rfl
  | succ k ih => simpa [List.replicate, skipWs, isWSChar] using ih

theorem objChars_len : objChars.length = 15 := rfl

theorem bigBody_take : bigBody.take maxBodyBytes
    = objChars ++ List.replicate (maxBodyBytes - 15) ' ' := by
  unfold bigBody
  rw [List.take_append_eq_append_take, List.take_replicate,
    List.take_of_length_le (by rw [objChars_len]; norm_num [maxBodyBytes])]
  rw [objChars_len]
  norm_num [maxBodyBytes]

theorem decodeTrunc_obj (k : Nat) :
    decodeTrunc (objChars ++ List.replicate k ' ') = .ok { prompt := "hi" } := by
  unfold decodeTrunc
  rw [show (objChars ++ List.replicate k ' ').length = 15 + k by
    rw [List.length_append, objChars_len, List.length_replicate]]
  rw [show 2 * (15 + k) + 2 = (2 * k + 28) + 4 by ring, parse_obj_prefix]
  have hmore : jsonMore (List.replicate k ' ') = false := by
    simp [jsonMore, skipWs_replicate]
  simp only [hmore, Bool.false_eq_true, if_false]
  rfl

theorem decodeBody_bigBody : decodeBody bigBody = .ok { prompt := "hi" } := by
  unfold decodeBody
  rw [bigBody_take, decodeTrunc_obj]

theorem handleRun_ok_200 (body : List Char) (req : RunRequest)
    (run : RunRequest → Except RuntimeErrorKind (Option ApiResponse))
    (r : ApiResponse) (res : AgentResult)
    (hdec : decodeBody body = .ok req) (hb : trimSpace req.prompt ≠ "")
    (hr : run req = .ok (some r)) (hres : r.result = some res) :
    handleRun body run = ⟨200, true, some ⟨req.sessionID, res.output, res.stopReason,
      res.usage, res.toolCalls, r.tags.getD []⟩⟩ := by
  simp [handleRun, hdec, hb, hr, buildRunResponse, hres]

/-- Claim C6 counterexample: `bigBody` is a body longer than 1 MiB — a
complete JSON object inside the first MiB followed by whitespace over the
limit — yet the handler accepts it with status 200 and runs the runtime,
instead of rejecting it with 400. -/
theorem C6_counterexample :
    maxBodyBytes < bigBody.length ∧
    handleRun bigBody runOK = ⟨200, true, some ⟨"", "done", "done", 3, [], []⟩⟩ := by
  constructor
  · unfold bigBody
    rw [List.length_append, objChars_len, List.length_replicate]
    omega
  · exact handleRun_ok_200 bigBody { prompt := "hi" } runOK okResponse
      ⟨"done", "done", 3, []⟩ decodeBody_bigBody (by decide) rfl rfl

theorem handleRun_runs_of_nonblank (body : List Char) (req : RunRequest)
    (run : RunRequest → Except RuntimeErrorKind (Option ApiResponse))
    (hdec : decodeBody body = .ok req) (hb : trimSpace req.prompt ≠ "") :
    (handleRun body run).status ≠ 400 ∧ (handleRun body run).ranRuntime = true := by
  cases hr : run req with
  | error k =>
      have h : handleRun body run = ⟨502, true, none⟩ := by
        simp [handleRun, hdec, hb, hr]
      rw [h]
      exact ⟨by decide, rfl⟩
  | ok resp =>
      cases hbld : buildRunResponse resp req.sessionID with
      | error e =>
          have h : handleRun body run = ⟨500, true, none⟩ := by
            simp [handleRun, hdec, hb, hr, hbld]
          rw [h]
          exact ⟨by decide, rfl⟩
      | ok payload =>
          have h : handleRun body run = ⟨200, true, some payload⟩ := by
            simp [handleRun, hdec, hb, hr, hbld]
          rw [h]
          exact ⟨by simp, rfl⟩

/-- Claim C6 amended: the limit reader silently truncates the body to its
first MiB — the handler's outcome never depends on bytes beyond
`maxBodyBytes` — and a request is answered 400 before the runtime runs
exactly when the truncated first MiB fails to decode as a single JSON
object or decodes to a request whose prompt is blank; a body over the
limit is therefore never rejected for its size alone. -/
theorem C6_amended (body : List Char)
    (run : RunRequest → Except RuntimeErrorKind (Option ApiResponse)) :
    handleRun body run = handleRun (body.take maxBodyBytes) run ∧
    (handleRun body run = ⟨400, false, none⟩ ↔
      (∃ e, decodeBody body = .error e) ∨
      (∃ req, decodeBody body = .ok req ∧ trimSpace req.prompt = "")) := by
  constructor
  · have h : decodeBody (body.take maxBodyBytes) = decodeBody body := by
      unfold decodeBody
      rw [List.take_take, min_self]
    unfold handleRun
    rw [h]
  · constructor
    · intro h400
      cases hdec : decodeBody body with
      | error e => exact .inl ⟨e, rfl⟩
      | ok req =>
          by_cases hb : trimSpace req.prompt = ""
          · exact .inr ⟨req, rfl, hb⟩
          · exfalso
            have hrun := handleRun_runs_of_nonblank body req run hdec hb
            rw [h400] at hrun
            exact hrun.1 rfl
    · rintro (⟨e, he⟩ | ⟨req, hdec, hb⟩)
      · exact handleRun_decode_error body e run he
      · simp [handleRun, hdec, hb]

/-- Witness for the amended C6: an undecodable body and a blank-prompt body
are both answered 400 through the biconditional, and the over-limit body
evaluates identically to its truncated prefix. -/
theorem C6_witness :
    handleRun ("no".toList) runOK = ⟨400, false, none⟩ ∧
    handleRun bodyBlank runOK = ⟨400, false, none⟩ ∧
    handleRun bigBody runOK = handleRun (bigBody.take maxBodyBytes) runOK :=
  ⟨(C6_amended ("no".toList) runOK).2.mpr
      (.inl ⟨"request body is not valid JSON", rfl⟩),
   (C6_amended bodyBlank runOK).2.mpr (.inr ⟨{ prompt := "  " }, rfl, rfl⟩),
   (C6_amended bigBody runOK).1⟩

/-- Claim C7: on hosts with `O_NOFOLLOW` the open reports a symlink loop
exactly when the host open fails with `ELOOP`, falls back silently on
`ENOTDIR`/`EISDIR`, and succeeds on a plain open; on Windows
`supportsNoFollow` is false and `openNoFollow` reports no error for any
path. -/
theorem C7_openNoFollow_symlink :
    (∀ r : OpenResult, openNoFollow r = .symlinkLoop ↔ r = .err .eloop) ∧
    openNoFollow (.err .enotdir) = .noError ∧
    openNoFollow (.err .eisdir) = .noError ∧
    openNoFollow .opened = .noError ∧
    supportsNoFollow false = true ∧
    supportsNoFollow true = false ∧
    (∀ p : String, openNoFollowWindows p = .noError) := by
  refine ⟨?_, rfl, rfl, rfl, rfl, rfl, fun _ => rfl⟩
  intro r
  constructor
  · intro h
    match r with
    | .opened => exact absurd h (by decide)
    | .err .eloop => rfl
    | .err .enotdir => exact absurd h (by decide)
    | .err .eisdir => exact absurd h (by decide)
    | .err (.other c) => exact absurd h (by simp [openNoFollow])
  · intro h
    rw [h]
    rfl

/-- Witness for C7 at the concrete `ELOOP` open result. -/
theorem C7_witness :
    openNoFollow (.err .eloop) = .symlinkLoop ∧ openNoFollowWindows "/tmp/x" = .noError :=
  ⟨(C7_openNoFollow_symlink.1 (.err .eloop)).mpr rfl, C7_openNoFollow_symlink.2.2.2.2.2.2 "/tmp/x"⟩

theorem refill_same_instant (b : Bucket) : refill b b.lastRefill = b := by
  simp [refill]

theorem consumeN_at_instant (now : ℚ) :
    ∀ (n m : Nat) (b : Bucket), b.lastRefill = now → b.tokens = (m : ℚ) →
      (consumeN b now n).2 = min n m ∧
      (consumeN b now n).1 = { b with tokens := ((m - min n m : Nat) : ℚ) } := by
  intro n
  induction n with
  | zero =>
      intro m b hlast htok
      simp only [consumeN, Nat.zero_min, Nat.sub_zero]
      refine ⟨trivial, ?_⟩
      cases b
      simp_all
  | succ k ih =>
      intro m b hlast htok
      have hrefill : refill b now = b := by rw [← hlast]; exact refill_same_instant b
      cases m with
      | zero =>
          have hfail : tryConsume b now = (b, false) := by
            unfold tryConsume
            rw [hrefill, if_pos (by rw [htok]; norm_num)]
          have h0 := ih 0 b hlast htok
          simp only [consumeN, hfail]
          exact ⟨by simpa using h0.1, by simpa using h0.2⟩
      | succ j =>
          have hjq : (0 : ℚ) ≤ (j : ℚ) := Nat.cast_nonneg j
          have hok : tryConsume b now = ({ b with tokens := ((j : Nat) : ℚ) }, true) := by
            unfold tryConsume
            rw [hrefill, if_neg (by rw [htok]; push_cast; linarith)]
            rw [show b.tokens - 1 = ((j : Nat) : ℚ) by rw [htok]; push_cast; ring]
          have hrec := ih j { b with tokens := ((j : Nat) : ℚ) } hlast rfl
          simp only [consumeN, hok]
          constructor
          · rw [hrec.1, Nat.succ_min_succ]
          · rw [hrec.2, Nat.succ_min_succ]
            simp [Nat.succ_sub_succ]

/-- Claim C4: `tryConsume` refills by elapsed seconds times rate capped at
the burst, consumes exactly one token on success, keeps tokens within
`[0, burst]`, and from a full bucket of integer size `b` exactly the first
`b` attempts within one tick succeed while attempt `b + 1` fails. -/
theorem C4_token_bucket (bval : Nat) (r t0 : ℚ) (hr : 0 ≤ r) :
    BucketInv ⟨r, (bval : ℚ), (bval : ℚ), t0⟩ ∧
    (consumeN ⟨r, (bval : ℚ), (bval : ℚ), t0⟩ t0 bval).2 = bval ∧
    (consumeN ⟨r, (bval : ℚ), (bval : ℚ), t0⟩ t0 (bval + 1)).2 = bval ∧
    (∀ (b : Bucket) (now : ℚ), b.lastRefill < now →
      refill b now = { b with
        tokens := min (b.tokens + (now - b.lastRefill) * b.ratePerSec) b.burst
        lastRefill := now }) ∧
    (∀ (b : Bucket) (now : ℚ), (tryConsume b now).2 = true →
      (tryConsume b now).1.tokens = (refill b now).tokens - 1) ∧
    (∀ (b : Bucket) (now : ℚ), BucketInv b → BucketInv (tryConsume b now).1) := by
  refine ⟨⟨by positivity, le_refl _, hr⟩, ?_, ?_, ?_, ?_, ?_⟩
  · rw [(consumeN_at_instant t0 bval bval _ rfl rfl).1]
    exact Nat.min_self bval
  · rw [(consumeN_at_instant t0 (bval + 1) bval _ rfl rfl).1]
    omega
  · intro b now hlt
    unfold refill
    rw [if_pos (by linarith)]
    rw [show (if b.burst < b.tokens + (now - b.lastRefill) * b.ratePerSec then b.burst
        else b.tokens + (now - b.lastRefill) * b.ratePerSec)
        = min (b.tokens + (now - b.lastRefill) * b.ratePerSec) b.burst by
      rw [min_def]; split_ifs <;> linarith]
  · intro b now hsucc
    unfold tryConsume at hsucc ⊢
    split_ifs at hsucc ⊢ with h
    rfl
  · intro b now hinv
    obtain ⟨h0, hb, hrate⟩ := hinv
    have hrf : 0 ≤ (refill b now).tokens ∧ (refill b now).tokens ≤ (refill b now).burst ∧
        (refill b now).ratePerSec = b.ratePerSec := by
      unfold refill
      split_ifs with h1 h2
      · refine ⟨by dsimp only; linarith, by dsimp only; linarith, rfl⟩
      · have hmul : 0 ≤ (now - b.lastRefill) * b.ratePerSec := mul_nonneg (by linarith) hrate
        refine ⟨by dsimp only; linarith, by dsimp only; linarith, rfl⟩
      · exact ⟨h0, hb, rfl⟩
    unfold tryConsume
    split_ifs with h2
    · exact ⟨hrf.1, hrf.2.1, by rw [hrf.2.2]; exact hrate⟩
    · refine ⟨by dsimp only; linarith, by dsimp only; linarith [hrf.2.1], ?_⟩
      dsimp only
      rw [hrf.2.2]
      exact hrate

/-- Witness for C4 at burst 2, rate 1: both attempts succeed, the third
fails, and the full bucket satisfies the invariant. -/
theorem C4_witness :
    BucketInv ⟨1, (2 : ℚ), (2 : ℚ), 0⟩ ∧
    (consumeN ⟨1, (2 : ℚ), (2 : ℚ), 0⟩ 0 2).2 = 2 ∧
    (consumeN ⟨1, (2 : ℚ), (2 : ℚ), 0⟩ 0 3).2 = 2 := by
  have h := C4_token_bucket 2 1 0 (by norm_num)
  exact ⟨h.1, by exact_mod_cast h.2.1, by exact_mod_cast h.2.2.1⟩

theorem gateExec_balance (cap : Nat) :
    ∀ (ops : List GateOp) (st : GateCounts), gateWf cap st.held ops = true →
      (gateExec cap st ops).held + (gateExec cap st ops).rels + st.succ
        = st.held + (gateExec cap st ops).succ + st.rels := by
  intro ops
  induction ops with
  | nil => intro st _; simp [gateExec]; omega
  | cons op rest ih =>
      intro st hwf
      cases op with
      | acq c p =>
          cases hacq : semTryAcquire cap st.held c p with
          | ok h' =>
              have hwf' : gateWf cap h' rest = true := by
                rw [gateWf, hacq] at hwf; exact hwf
              have h1 : h' = st.held + 1 := by
                unfold semTryAcquire at hacq
                split_ifs at hacq ; simp_all
              have := ih ⟨h', st.succ + 1, st.rels⟩ hwf'
              simp only [gateExec, hacq] at *
              omega
          | error e =>
              have hwf' : gateWf cap st.held rest = true := by
                rw [gateWf, hacq] at hwf; exact hwf
              have := ih st hwf'
              simp only [gateExec, hacq] at *
              omega
      | rel =>
          rw [gateWf] at hwf
          have hpos : 0 < st.held := by
            rcases Bool.and_eq_true .. |>.mp hwf with ⟨h1, _⟩
            exact of_decide_eq_true h1
          have hwf' : gateWf cap (st.held - 1) rest = true :=
            (Bool.and_eq_true .. |>.mp hwf).2
          have hrel : afterAgentRelease st.held = st.held - 1 := by
            unfold afterAgentRelease
            rw [if_pos hpos]
          have hwrap := ih ⟨st.held - 1, st.succ, st.rels + 1⟩ hwf'
          simp only [gateExec, hrel] at *
          omega

/-- Claim C5: the concurrency gate is non-blocking — with a live context
`BeforeAgent`'s semaphore step either immediately acquires a slot or fails
with the concurrency-limit error — and balanced: over any well-formed
interleaving starting from an idle semaphore, held + releases = successful
acquisitions, so when every successful run has released (runs drained) the
semaphore is idle again and its free capacity equals the configured
capacity. -/
theorem C5_gate_balanced (cap : Nat) (ops : List GateOp)
    (hwf : gateWf cap 0 ops = true) :
    (∀ (held : Nat) (pick : Bool), held < cap →
      semTryAcquire cap held false pick = .ok (held + 1)) ∧
    (∀ (held : Nat) (pick : Bool), cap ≤ held →
      semTryAcquire cap held false pick = .error .concurrentLimit) ∧
    (gateExec cap ⟨0, 0, 0⟩ ops).held + (gateExec cap ⟨0, 0, 0⟩ ops).rels
      = (gateExec cap ⟨0, 0, 0⟩ ops).succ ∧
    ((gateExec cap ⟨0, 0, 0⟩ ops).rels = (gateExec cap ⟨0, 0, 0⟩ ops).succ →
      (gateExec cap ⟨0, 0, 0⟩ ops).held = 0) := by
  have hbal := gateExec_balance cap ops ⟨0, 0, 0⟩ hwf
  simp only at hbal
  refine ⟨?_, ?_, by omega, by omega⟩
  · intro held pick hlt
    unfold semTryAcquire
    rw [if_pos hlt]
    simp
  · intro held pick hge
    unfold semTryAcquire
    rw [if_neg (by omega)]
    simp

/-- Witness for C5: capacity 1, two concurrent acquisitions (the second
fails) and one release; the semaphore drains back to zero held slots. -/
theorem C5_witness :
    gateWf 1 0 [.acq false false, .acq false false, .rel] = true ∧
    (gateExec 1 ⟨0, 0, 0⟩ [.acq false false, .acq false false, .rel]).held = 0 ∧
    semTryAcquire 1 0 false false = .ok 1 := by
  have h := C5_gate_balanced 1 [.acq false false, .acq false false, .rel] (by decide)
  refine ⟨by decide, ?_, h.1 0 false (by norm_num)⟩
  exact h.2.2.2 (by decide)

/-- Claim C3 counterexample: with rps=1, burst=1 and two simultaneous runs
at t=0, the second run does not fail fast with RateLimited — its
`waitForToken` blocks in the poll loop and acquires the refilled token at
t = 1 s, so its admission succeeds after waiting. -/
theorem C3_counterexample :
    tryConsume (newRateLimitBucket 1 1) 0 = (⟨1, 1, 0, 0⟩, true) ∧
    waitForToken ⟨1, 1, 0, 0⟩ [(false, 0), (false, 1)] = .acquired ⟨1, 1, 0, 1⟩ ∧
    waitForToken ⟨1, 1, 0, 0⟩ [(false, 0), (false, 1)]
      ≠ .failed .rateLimited ⟨1, 1, 0, 0⟩ := by
  have h1 : tryConsume (newRateLimitBucket 1 1) 0 = (⟨1, 1, 0, 0⟩, true) := by
    norm_num [tryConsume, refill, newRateLimitBucket]
  have h2 : tryConsume (⟨1, 1, 0, 0⟩ : Bucket) 0 = (⟨1, 1, 0, 0⟩, false) := by
    norm_num [tryConsume, refill]
  have h3 : tryConsume (⟨1, 1, 0, 0⟩ : Bucket) 1 = (⟨1, 1, 0, 1⟩, true) := by
    norm_num [tryConsume, refill]
  have h4 : waitForToken ⟨1, 1, 0, 0⟩ [(false, 0), (false, 1)] = .acquired ⟨1, 1, 0, 1⟩ := by
    simp [waitForToken, h2, h3]
  refine ⟨h1, h4, ?_⟩
  rw [h4]
  intro hcontra
  cases hcontra

/-- Claim C3 amended: an exhausted bucket does not make `waitForToken` fail
fast with RateLimited — no outcome is ever `RateLimited` (or the
concurrency error); the loop keeps polling, and its only failure is the
context's own cancellation, which requires some poll step to see the
context done (the run deadline). -/
theorem C3_amended (b : Bucket) (sched : List (Bool × ℚ)) :
    (∀ bkt, waitForToken b sched ≠ .failed .rateLimited bkt) ∧
    (∀ bkt, waitForToken b sched ≠ .failed .concurrentLimit bkt) ∧
    (∀ e bkt, waitForToken b sched = .failed e bkt →
      e = .ctxCancelled ∧ ∃ step ∈ sched, step.1 = true) := by
  induction sched generalizing b with
  | nil =>
      refine ⟨fun bkt => ?_, fun bkt => ?_, fun e bkt h => ?_⟩
      · simp [waitForToken]
      · simp [waitForToken]
      · simp [waitForToken] at h
  | cons step rest ih =>
      by_cases hdone : step.1 = true
      · refine ⟨fun bkt => ?_, fun bkt => ?_, fun e bkt h => ?_⟩
        · unfold waitForToken
          rw [if_pos hdone]
          simp
        · unfold waitForToken
          rw [if_pos hdone]
          simp
        · unfold waitForToken at h
          rw [if_pos hdone] at h
          cases h
          exact ⟨rfl, step, List.mem_cons_self step rest, hdone⟩
      · cases htc : tryConsume b step.2 with
        | mk b' ok =>
            cases ok with
            | true =>
                refine ⟨fun bkt => ?_, fun bkt => ?_, fun e bkt h => ?_⟩
                · unfold waitForToken
                  rw [if_neg hdone, htc]
                  simp
                · unfold waitForToken
                  rw [if_neg hdone, htc]
                  simp
                · unfold waitForToken at h
                  rw [if_neg hdone, htc] at h
                  cases h
            | false =>
                have hrw : waitForToken b (step :: rest) = waitForToken b' rest := by
                  conv_lhs => rw [waitForToken]
                  rw [if_neg hdone, htc]
                refine ⟨fun bkt => ?_, fun bkt => ?_, fun e bkt h => ?_⟩
                · rw [hrw]; exact (ih b').1 bkt
                · rw [hrw]; exact (ih b').2.1 bkt
                · rw [hrw] at h
                  obtain ⟨he, s, hs, hst⟩ := (ih b').2.2 e bkt h
                  exact ⟨he, s, List.mem_cons_of_mem step hs, hst⟩

/-- Witness for the amended C3: a schedule that only ever sees the context
done fails with the context error, never RateLimited. -/
theorem C3_witness :
    (∀ bkt, waitForToken (newRateLimitBucket 1 1) [(true, 0)] ≠ .failed .rateLimited bkt) ∧
    GateError.ctxCancelled = GateError.ctxCancelled ∧
    ∃ step ∈ [((true : Bool), (0 : ℚ))], step.1 = true :=
  ⟨(C3_amended (newRateLimitBucket 1 1) [(true, 0)]).1,
   (C3_amended (newRateLimitBucket 1 1) [(true, 0)]).2.2 .ctxCancelled
     (newRateLimitBucket 1 1) (by decide)⟩

theorem mergeScalar_eq_or {α : Type} (lo hi : Option α) : mergeScalar lo hi = hi.or lo := by
  cases hi <;> rfl

theorem lookup_append (k : String) (l₁ l₂ : List (String × String)) :
    List.lookup k (l₁ ++ l₂) = (List.lookup k l₁).or (List.lookup k l₂) := by
  induction l₁ with
  | nil => simp [List.lookup]
  | cons q rest ih =>
      cases q with
      | mk a v =>
          simp only [List.cons_append, List.lookup]
          by_cases h : (k == a) = true
          · simp [h]
          · simp only [Bool.not_eq_true] at h
            simp [h, ih]

theorem lookup_filter (k : String) (l : List (String × String)) (p : String × String → Bool)
    (hp : ∀ q ∈ l, q.1 = k → p q = true) :
    List.lookup k (l.filter p) = List.lookup k l := by
  induction l with
  | nil => simp
  | cons q rest ih =>
      have ih' := ih (fun q hq => hp q (List.mem_cons_of_mem _ hq))
      by_cases hq1 : q.1 = k
      · have hpq : p q = true := hp q (List.mem_cons_self q rest) hq1
        rw [List.filter_cons_of_pos hpq]
        cases q with
        | mk a v =>
            have hk : (k == a) = true := by
              simp only at hq1
              simp [hq1]
            simp [List.lookup, hk]
      · cases hpq : p q with
        | true =>
            rw [List.filter_cons_of_pos hpq]
            cases q with
            | mk a v =>
                have hk : (k == a) = false := by
                  simp only at hq1
                  simp [beq_eq_false_iff_ne]
                  exact fun h => hq1 h.symm
                simp [List.lookup, hk, ih']
        | false =>
            rw [List.filter_cons_of_neg (by simp [hpq])]
            cases q with
            | mk a v =>
                have hk : (k == a) = false := by
                  simp only at hq1
                  simp [beq_eq_false_iff_ne]
                  exact fun h => hq1 h.symm
                simp [List.lookup, hk, ih']

theorem lookup_mergeStringMap (lo hi : List (String × String)) (k : String) :
    List.lookup k (mergeStringMap lo hi) = (List.lookup k hi).or (List.lookup k lo) := by
  unfold mergeStringMap
  rw [lookup_append]
  cases hlk : List.lookup k hi with
  | some v => rfl
  | none =>
      simp only [Option.none_or]
      apply lookup_filter
      intro q _ hqk
      simp [hqk, hlk]

theorem dedupFirstAux_append (s a b : List String) :
    dedupFirstAux s (dedupFirstAux s a ++ b) = dedupFirstAux s (a ++ b) := by
  induction a generalizing s with
  | nil => simp [dedupFirstAux]
  | cons x xs ih =>
      by_cases hx : x ∈ s
      · simp only [dedupFirstAux, if_pos hx, List.cons_append]
        exact ih s
      · simp only [dedupFirstAux, if_neg hx, List.cons_append]
        rw [ih (x :: s)]
        rfl

theorem dedupFirstAux_not_mem_seen (l : List String) :
    ∀ (s : List String), ∀ x ∈ dedupFirstAux s l, x ∉ s := by
  induction l with
  | nil => intro s x hx; simp [dedupFirstAux] at hx
  | cons y ys ih =>
      intro s x hx
      by_cases hy : y ∈ s
      · rw [dedupFirstAux, if_pos hy] at hx
        exact ih s x hx
      · rw [dedupFirstAux, if_neg hy] at hx
        rcases List.mem_cons.mp hx with h | h
        · rw [h]; exact hy
        · intro hs
          exact ih (y :: s) x h (List.mem_cons_of_mem y hs)

theorem dedupFirstAux_nodup (l : List String) :
    ∀ s : List String, (dedupFirstAux s l).Nodup := by
  induction l with
  | nil => intro s; simp [dedupFirstAux]
  | cons y ys ih =>
      intro s
      by_cases hy : y ∈ s
      · rw [dedupFirstAux, if_pos hy]
        exact ih s
      · rw [dedupFirstAux, if_neg hy]
        refine List.nodup_cons.mpr ⟨?_, ih (y :: s)⟩
        intro hmem
        exact dedupFirstAux_not_mem_seen ys (y :: s) y hmem (List.mem_cons_self y s)

/-- Claim C8: five-layer merging follows precedence
managed > runtime > local > project > user with deep-merge semantics:
scalars take the highest set value, maps union with the higher layer
winning on shared keys, lists concatenate lower-then-higher with
duplicates removed keeping first-occurrence order (and hence no
duplicates).  (`MergeSettings` itself is modelled from the spec, as the
repository ships only its tests.) -/
theorem C8_merge_precedence (u p l r m : Config.Settings) :
    (mergeLayers u p l r m).model
      = m.model.or (r.model.or (l.model.or (p.model.or u.model))) ∧
    (mergeLayers u p l r m).cleanupPeriodDays
      = m.cleanupPeriodDays.or (r.cleanupPeriodDays.or
          (l.cleanupPeriodDays.or (p.cleanupPeriodDays.or u.cleanupPeriodDays))) ∧
    (∀ k : String, List.lookup k (mergeLayers u p l r m).env
      = (List.lookup k m.env).or ((List.lookup k r.env).or ((List.lookup k l.env).or
          ((List.lookup k p.env).or (List.lookup k u.env))))) ∧
    (mergeLayers u p l r m).companyAnnouncements
      = dedupFirstAux [] ((((u.companyAnnouncements ++ p.companyAnnouncements)
          ++ l.companyAnnouncements) ++ r.companyAnnouncements)
          ++ m.companyAnnouncements) ∧
    (mergeLayers u p l r m).companyAnnouncements.Nodup := by
  refine ⟨?_, ?_, ?_, ?_, ?_⟩
  · simp [mergeLayers, MergeSettings, mergeScalar_eq_or]
  · simp [mergeLayers, MergeSettings, mergeScalar_eq_or]
  · intro k
    simp only [mergeLayers, MergeSettings]
    rw [lookup_mergeStringMap, lookup_mergeStringMap, lookup_mergeStringMap,
      lookup_mergeStringMap]
  · simp only [mergeLayers, MergeSettings, mergeStringSlices]
    rw [dedupFirstAux_append [] (u.companyAnnouncements ++ p.companyAnnouncements)
        l.companyAnnouncements,
      dedupFirstAux_append [] ((u.companyAnnouncements ++ p.companyAnnouncements)
        ++ l.companyAnnouncements) r.companyAnnouncements,
      dedupFirstAux_append [] (((u.companyAnnouncements ++ p.companyAnnouncements)
        ++ l.companyAnnouncements) ++ r.companyAnnouncements) m.companyAnnouncements]
  · exact dedupFirstAux_nodup _ []

theorem sortStrings_eq_of_perm {l₁ l₂ : List String} (h : l₁.Perm l₂) :
    sortStrings l₁ = sortStrings l₂ :=
  List.eq_of_perm_of_sorted
    ((List.perm_insertionSort _ l₁).trans (h.trans (List.perm_insertionSort _ l₂).symm))
    (List.sorted_insertionSort _ l₁) (List.sorted_insertionSort _ l₂)

/-- The pointwise relation between two hook maps whose value lists are
permutations of each other, key for key. -/
def HooksPerm (h₁ h₂ : List (String × List String)) : Prop :=
  List.Forall₂ (fun x y => x.1 = y.1 ∧ x.2.Perm y.2) h₁ h₂

theorem hooks_keys_eq {h₁ h₂ : List (String × List String)} (h : HooksPerm h₁ h₂) :
    h₁.map Prod.fst = h₂.map Prod.fst := by
  induction h with
  | nil => rfl
  | cons hxy _ ih => simp [hxy.1, ih]

theorem hookValues_perm {h₁ h₂ : List (String × List String)} (h : HooksPerm h₁ h₂)
    (k : String) : (hookValues h₁ k).Perm (hookValues h₂ k) := by
  induction h with
  | nil => exact List.Perm.refl _
  | @cons x y t₁ t₂ hxy hrest ih =>
      obtain ⟨x1, x2⟩ := x
      obtain ⟨y1, y2⟩ := y
      obtain ⟨hk, hperm⟩ := hxy
      simp only at hk hperm
      subst hk
      unfold hookValues at ih ⊢
      simp only [List.lookup]
      by_cases hkx : (k == x1) = true
      · simp only [hkx]
        exact hperm
      · simp only [Bool.not_eq_true] at hkx
        simp only [hkx]
        exact ih

theorem canonicalPayload_perm_eq (mf₁ mf₂ : Manifest)
    (hname : mf₁.name = mf₂.name) (hver : mf₁.version = mf₂.version)
    (hdesc : mf₁.description = mf₂.description) (hauth : mf₁.author = mf₂.author)
    (hdig : mf₁.digest = mf₂.digest) (hsgn : mf₁.signer = mf₂.signer)
    (hc : mf₁.commands.Perm mf₂.commands) (ha : mf₁.agents.Perm mf₂.agents)
    (hs : mf₁.skills.Perm mf₂.skills) (hh : HooksPerm mf₁.hooks mf₂.hooks) :
    canonicalPayload mf₁ = canonicalPayload mf₂ := by
  have hfun : (fun k => HookEntry.mk k (sortStrings (hookValues mf₁.hooks k)))
      = (fun k => HookEntry.mk k (sortStrings (hookValues mf₂.hooks k))) :=
    funext fun k => by rw [sortStrings_eq_of_perm (hookValues_perm hh k)]
  unfold canonicalPayload
  rw [hname, hver, hdesc, hauth, hdig, hsgn, sortStrings_eq_of_perm hc,
    sortStrings_eq_of_perm ha, sortStrings_eq_of_perm hs, hooks_keys_eq hh, hfun]

/-- Claim C10: `CanonicalManifestBytes` is deterministic and
order-insensitive — manifests differing only by permutations of
Commands/Agents/Skills or of the value lists under each Hooks key
canonicalise to byte-identical output — and consequently both `SignManifest`
and `TrustStore.Verify` treat them identically. -/
theorem C10_canonical_order_insensitive (mf₁ mf₂ : Manifest)
    (hname : mf₁.name = mf₂.name) (hver : mf₁.version = mf₂.version)
    (hdesc : mf₁.description = mf₂.description) (hauth : mf₁.author = mf₂.author)
    (hdig : mf₁.digest = mf₂.digest) (hsgn : mf₁.signer = mf₂.signer)
    (hsig : mf₁.signature = mf₂.signature)
    (hc : mf₁.commands.Perm mf₂.commands) (ha : mf₁.agents.Perm mf₂.agents)
    (hs : mf₁.skills.Perm mf₂.skills) (hh : HooksPerm mf₁.hooks mf₂.hooks) :
    canonicalManifestBytes mf₁ = canonicalManifestBytes mf₂ ∧
    (∀ (sign : String → String → String) (hash : String → String) (priv : String),
      signManifest sign hash priv mf₁ = signManifest sign hash priv mf₂) ∧
    (∀ (sigValid : String → String → String → Bool) (hash : String → String)
        (b64 : String → Option String) (ts : TrustStore),
      verify sigValid hash b64 ts mf₁ (canonicalManifestBytes mf₁)
        = verify sigValid hash b64 ts mf₂ (canonicalManifestBytes mf₂)) := by
  have hbytes : canonicalManifestBytes mf₁ = canonicalManifestBytes mf₂ := by
    unfold canonicalManifestBytes
    rw [canonicalPayload_perm_eq mf₁ mf₂ hname hver hdesc hauth hdig hsgn hc ha hs hh]
  refine ⟨hbytes, ?_, ?_⟩
  · intro sign hash priv
    unfold signManifest
    rw [hbytes]
  · intro sigValid hash b64 ts
    unfold verify
    rw [hdig, hsgn, hsig, hbytes]

/-- Witness for C10 at two concrete manifests that differ only in list
order. -/
theorem C10_witness :
    canonicalManifestBytes mfA = canonicalManifestBytes mfB ∧
    mfA.commands.Perm mfB.commands :=
  have hh : HooksPerm mfA.hooks mfB.hooks :=
    List.Forall₂.cons ⟨rfl, by decide⟩ List.Forall₂.nil
  ⟨(C10_canonical_order_insensitive mfA mfB rfl rfl rfl rfl rfl rfl rfl
      (by decide) (by decide) (by decide) hh).1, by decide⟩
